import Mathlib

/-!
Shallow embedding of the JMUD-Client repository (Python, Streamlit MUD client)
and proofs about it.

Source files modelled:
  * `src/mud_client.py` — `GameConfig`, `MUDClient` (`send_command`,
    `subscribe_to_redis`, `start_listener_thread`, `listen_to_redis`)
    and `GameState` (`add_message`, `get_messages`, `clear_messages`).
  * `src/app.py` — the per-render queue drain in `render_game_interface`.

External effects (HTTP responses, Redis, the wall clock, Supabase) are passed
in as explicit oracle arguments, so every Python code path becomes a total
Lean function on explicit state.
-/

/-- Python-string helpers: `str.lower()` via `Char.toLower` on the char list
(the repository only ever compares ASCII command words). -/
def py_lower (s : String) : String := String.mk (s.data.map Char.toLower)

/-- Python `s.startswith(p)`. -/
def py_startswith (s p : String) : Bool := p.data.isPrefixOf s.data

/-- Python `s.split('\n')[0]`: the prefix of `s` before the first newline
(`mud_client.py` line 189). -/
def firstLine (s : String) : String := String.mk (s.data.takeWhile (fun c => c ≠ '\n'))

/-- Python `s.replace(' ', '_')` for the single-character pattern used at
`mud_client.py` line 269. -/
def spaceToUnderscore (s : String) : String :=
  String.mk (s.data.map (fun c => if c = ' ' then '_' else c))

/-- `GameConfig` (`mud_client.py` lines 15-22).  `refresh_rate` is a Python
float; no claim computes with it, so it is modelled as a rational. -/
structure GameConfig where
  base_url : String
  refresh_rate : Rat
  max_messages : Int
  redis_host : String := "localhost"
  redis_port : Int := 6379
deriving DecidableEq

/-- One element of `st.session_state.messages`: the dict literal built by
`GameState.add_message` (`mud_client.py` lines 293-297). -/
structure TranscriptEntry where
  timestamp : String
  message : String
  type : String
deriving DecidableEq

namespace GameState

/-- The `while len > 100: pop(0)` loop of `GameState.add_message`
(`mud_client.py` lines 300-301), run with explicit fuel so it is structural;
`add_message` supplies fuel = list length, which always suffices. -/
def popExcess : Nat → List TranscriptEntry → List TranscriptEntry
  | 0, l => l
  | n + 1, l => if 100 < l.length then popExcess n l.tail else l

/-- `GameState.add_message` (`mud_client.py` lines 290-301).  The wall-clock
timestamp `datetime.now().strftime(...)` is an oracle argument `ts`. -/
def add_message (msgs : List TranscriptEntry) (ts message mtype : String) :
    List TranscriptEntry :=
  let appended := msgs ++ [⟨ts, message, mtype⟩]
  popExcess appended.length appended

/-- `GameState.get_messages` (`mud_client.py` lines 303-305). -/
def get_messages (msgs : List TranscriptEntry) : List TranscriptEntry := msgs

/-- `GameState.clear_messages` (`mud_client.py` lines 307-309). -/
def clear_messages (_msgs : List TranscriptEntry) : List TranscriptEntry := []

theorem popExcess_eq_drop (fuel : Nat) (l : List TranscriptEntry)
    (h : l.length - 100 ≤ fuel) :
    popExcess fuel l = l.drop (l.length - 100) := by
  induction fuel generalizing l with
  | zero =>
    have : l.length - 100 = 0 := Nat.le_antisymm h (Nat.zero_le _)
    simp [popExcess, this]
  | succ n ih =>
    by_cases hl : 100 < l.length
    · have htail : l.tail.length - 100 ≤ n := by
        have : l.tail.length = l.length - 1 := List.length_tail l
        omega
      have h1 : l.tail = l.drop 1 := (List.drop_one l).symm
      rw [popExcess, if_pos hl, ih l.tail htail, h1, List.drop_drop]
      congr 1
      simp only [List.length_drop]
      omega
    · rw [popExcess, if_neg hl]
      have : l.length - 100 = 0 := by omega
      simp [this]

theorem add_message_eq_drop (msgs : List TranscriptEntry) (ts m ty : String) :
    add_message msgs ts m ty =
      (msgs ++ [TranscriptEntry.mk ts m ty]).drop ((msgs.length + 1) - 100) := by
  unfold add_message
  rw [popExcess_eq_drop _ _ (Nat.sub_le _ _)]
  simp

theorem add_message_length_le (msgs : List TranscriptEntry) (ts m ty : String) :
    (add_message msgs ts m ty).length ≤ 100 := by
  rw [add_message_eq_drop]
  simp only [List.length_drop, List.length_append, List.length_cons,
    List.length_nil]
  omega

/-- Folding a whole input sequence through `add_message`; each input row
carries the oracle timestamp together with the text and category. -/
def appendAll (msgs : List TranscriptEntry) (es : List TranscriptEntry) :
    List TranscriptEntry :=
  es.foldl (fun acc e => add_message acc e.timestamp e.message e.type) msgs

set_option maxRecDepth 4000 in
theorem appendAll_eq_drop (es : List TranscriptEntry) :
    ∀ msgs : List TranscriptEntry, msgs.length ≤ 100 →
      appendAll msgs es = (msgs ++ es).drop ((msgs ++ es).length - 100) := by
  induction es with
  | nil =>
    intro msgs h
    have h0 : msgs.length - 100 = 0 := by omega
    simp [appendAll, h0]
  | cons e es ih =>
    intro msgs h
    have heta : TranscriptEntry.mk e.timestamp e.message e.type = e := rfl
    have hstep : add_message msgs e.timestamp e.message e.type =
        (msgs ++ [e]).drop ((msgs.length + 1) - 100) := by
      rw [add_message_eq_drop, heta]
    have hlen : ((msgs ++ [e]).drop ((msgs.length + 1) - 100)).length ≤ 100 := by
      simp only [List.length_drop, List.length_append, List.length_cons,
        List.length_nil]
      omega
    have hfold : appendAll msgs (e :: es) =
        appendAll ((msgs ++ [e]).drop ((msgs.length + 1) - 100)) es := by
      simp [appendAll, List.foldl_cons, hstep]
    rw [hfold, ih _ hlen]
    have hk : (msgs.length + 1) - 100 ≤ (msgs ++ [e]).length := by
      simp only [List.length_append, List.length_cons, List.length_nil]
      omega
    have hsplit : (msgs ++ [e]).drop ((msgs.length + 1) - 100) ++ es
        = ((msgs ++ [e]) ++ es).drop ((msgs.length + 1) - 100) :=
      (List.drop_append_of_le_length hk).symm
    rw [hsplit, List.drop_drop]
    have harr : (msgs ++ [e]) ++ es = msgs ++ e :: es := by
      simp
    rw [harr]
    congr 1
    simp only [List.length_drop, List.length_append, List.length_cons,
      List.length_nil]
    omega

end GameState

namespace MUDClient

/-- Liveness of the spawned listener threads.  `threads` records the alive
flag of every `threading.Thread` the client ever created (in spawn order);
`listenerIdx` is the handle stored in `self.listener_thread`
(`mud_client.py` line 54: initially `None`); `stopSet` is the
`_stop_listening` event. -/
structure RelayState where
  threads : List Bool
  listenerIdx : Option Nat
  stopSet : Bool
deriving DecidableEq

/-- `self.listener_thread is not None and self.listener_thread.is_alive()`. -/
def listenerAlive (r : RelayState) : Bool :=
  match r.listenerIdx with
  | none => false
  | some i => r.threads.getD i false

/-- `MUDClient.start_listener_thread` (`mud_client.py` lines 228-233): when
the handle is `None` or the thread is dead, clear the stop event and spawn a
fresh (alive) thread, storing its handle; otherwise do nothing. -/
def start_listener_thread (r : RelayState) : RelayState :=
  if r.listenerIdx.isNone || !listenerAlive r then
    { threads := r.threads ++ [true]
      listenerIdx := some r.threads.length
      stopSet := false }
  else r

/-- One observation of `self.pubsub.get_message()` inside the listener loop
(`mud_client.py` lines 238-245): a data message, a `None`/ignored message, or
a raised exception. -/
inductive PollResult
  | data (payload : String)
  | nothing
  | raised (e : String)
deriving DecidableEq

/-- `MUDClient.listen_to_redis` (`mud_client.py` lines 235-247) run over a
finite observed sequence of poll results, threading the hand-off queue
`_redis_queue` (modelled as the list of queued payloads).  The whole loop
body is inside `try/except`: an exception is printed and the loop exits,
leaving the queue as it was — it never propagates. -/
def listen_to_redis : List PollResult → List String → List String
  | [], q => q
  | p :: ps, q =>
    match p with
    | .data d => listen_to_redis ps (q ++ [d])
    | .nothing => listen_to_redis ps q
    | .raised _ => q

/-- The client state touched by the claims: `self.player_id`, whether the
Redis connection was initialized (`self.redis_client is not None`,
`mud_client.py` lines 46-59), the pubsub channel and pattern subscription
sets, the relay state, and the session transcript
(`st.session_state.messages`), which `MUDClient` itself never touches. -/
structure ClientState where
  player_id : Option String
  redisOk : Bool
  channels : List String
  patterns : List String
  relay : RelayState
  messages : List TranscriptEntry
deriving DecidableEq

/-- `MUDClient.subscribe_to_redis` (`mud_client.py` lines 249-280).
`lookup` is the oracle for the best-effort
`GET /game/characters/get/{player_id}` room lookup: `none` when the request
raises, returns non-200, or the body has no `roomName`.  Returns the new
state together with the list of HTTP requests issued. -/
def subscribe_to_redis (s : ClientState) (player_id : String)
    (current_room : Option String) (lookup : Option String) :
    ClientState × List String :=
  if !s.redisOk then (s, [])
  else
    let base := ["player:" ++ player_id, "system"]
    let (room, reqs) : Option String × List String :=
      match current_room with
      | some r => (some r, [])
      | none => (lookup, ["GET /game/characters/get/" ++ player_id])
    let chans :=
      match room with
      | some r => if r ≠ "" then base ++ ["room:" ++ spaceToUnderscore r] else base
      | none => base
    ({ s with
        patterns := []
        channels := chans
        relay := start_listener_thread s.relay }, reqs)

/-- The `result` JSON object inside a 200 command response
(`mud_client.py` lines 202-206); every field is optional. -/
structure ResultBody where
  success : Option Bool
  message : Option String
  privateMessage : Option String
  roomMessage : Option String
deriving DecidableEq

/-- A parsed JSON body of a `/game/command` response: whether it has a
`result` key and whether it has an `error` key. -/
structure JsonEnvelope where
  result : Option ResultBody
  errorField : Option String
deriving DecidableEq

/-- Outcome of the `requests.post(.../game/command, ...)` call:
either the transport raised, or a response arrived with a status code, a
JSON parse outcome (`none` = `response.json()` raises, with `parseErr` the
exception text) and the raw `response.text`. -/
inductive CommandOutcome
  | transportError (e : String)
  | response (status : Nat) (json : Option JsonEnvelope) (text : String)
      (parseErr : String)
deriving DecidableEq

/-- External-world oracle for one `send_command` call: the game-server
response and the result of `CharacterService.update_location` (a Supabase
call whose outcome is only printed, `mud_client.py` lines 192-195). -/
structure ServerOracle where
  commandResponse : CommandOutcome
  updateLocation : Bool × String
deriving DecidableEq

/-- The value `send_command` returns in its second component: either the
four unpacked display fields, the raw envelope (200 without a `result`
key), or a bare `{"message": ...}` dict. -/
inductive CmdResult
  | fields (success : Bool) (message privateMessage roomMessage : String)
  | rawEnvelope (js : JsonEnvelope)
  | onlyMessage (message : String)
deriving DecidableEq

/-- Python truthiness of `self.player_id` (`if not self.player_id:`,
`mud_client.py` line 170): falsy when `None` or the empty string. -/
def pidTruthy : Option String → Bool
  | none => false
  | some p => !(p == "")

/-- `MUDClient.send_command` (`mud_client.py` lines 168-226).  Returns the
new client state, the Python return value `(bool, dict)`, and the list of
external requests issued.  The entire body is wrapped in `try/except`, and
every branch below returns a value, so the function is total: no exception
reaches the caller. -/
def send_command (s : ClientState) (command : String) (o : ServerOracle) :
    ClientState × (Bool × CmdResult) × List String :=
  if !pidTruthy s.player_id then
    (s, (false, .onlyMessage "Not connected to game"), [])
  else
    let pid := s.player_id.getD ""
    match o.commandResponse with
    | .transportError e =>
        (s, (false, .onlyMessage ("Error sending command: " ++ e)),
         ["POST /game/command"])
    | .response status json text parseErr =>
      if status = 200 then
        match json with
        | none =>
            -- response.json() raised; caught by the outer except
            (s, (false, .onlyMessage ("Error sending command: " ++ parseErr)),
             ["POST /game/command"])
        | some js =>
          let (s1, reqs1) :=
            if py_startswith (py_lower command) "move " then
              match js.result with
              | some rb =>
                let private_msg := rb.privateMessage.getD ""
                if private_msg ≠ "" then
                  let new_room := firstLine private_msg
                  let (s2, rq2) :=
                    subscribe_to_redis s pid (some new_room) none
                  (s2, ["SUPABASE update_location"] ++ rq2)
                else (s, [])
              | none => (s, [])
            else (s, [])
          match js.result with
          | some rb =>
              (s1,
               (true, .fields (rb.success.getD false) (rb.message.getD "")
                  (rb.privateMessage.getD "") (rb.roomMessage.getD "")),
               ["POST /game/command"] ++ reqs1)
          | none =>
              (s1, (true, .rawEnvelope js), ["POST /game/command"] ++ reqs1)
      else
        let emsg :=
          match json with
          | some js => js.errorField.getD ("Command failed: " ++ text)
          | none => "Command failed: " ++ text
        (s, (false, .onlyMessage emsg), ["POST /game/command"])

end MUDClient

/-- The foreground drain in `app.py` `render_game_interface` (lines 219-225):
one `get_nowait` per render; `queue.Empty` is swallowed; a falsy (empty
string) payload is consumed but not appended to the transcript.  `ts` is the
wall-clock oracle for `add_message`. -/
def render_queue_drain (q : List String) (msgs : List TranscriptEntry)
    (ts : String) : List String × List TranscriptEntry :=
  match q with
  | [] => (q, msgs)
  | m :: rest =>
      (rest, if m ≠ "" then GameState.add_message msgs ts m "system" else msgs)

namespace MUDClient

theorem getD_append_self (l : List Bool) (b : Bool) :
    (l ++ [b]).getD l.length false = b := by
  induction l with
  | nil => rfl
  | cons a l ih =>
    simp only [List.cons_append, List.length_cons, List.getD_cons_succ]
    exact ih

theorem getD_append_left (l : List Bool) (b : Bool) (i : Nat)
    (h : i < l.length) : (l ++ [b]).getD i false = l.getD i false := by
  induction l generalizing i with
  | nil => simp at h
  | cons a l ih =>
    cases i with
    | zero => rfl
    | succ i =>
      have : i < l.length := by simpa using h
      simpa [List.getD] using ih i this

/-- Invariant of the listener-thread bookkeeping: every live spawned thread
is the one currently held in `self.listener_thread`. -/
def RelayInv (r : RelayState) : Prop :=
  ∀ i, i < r.threads.length → r.threads.getD i false = true →
    r.listenerIdx = some i

theorem relayInv_unique {r : RelayState} (h : RelayInv r) :
    ∀ i j, i < r.threads.length → j < r.threads.length →
      r.threads.getD i false = true → r.threads.getD j false = true →
      i = j := by
  intro i j hi hj hti htj
  have h1 := h i hi hti
  have h2 := h j hj htj
  rw [h1] at h2
  exact (Option.some.injEq _ _).mp h2

theorem start_preserves_inv {r : RelayState} (h : RelayInv r) :
    RelayInv (start_listener_thread r) := by
  unfold start_listener_thread
  by_cases hg : (r.listenerIdx.isNone || !listenerAlive r) = true
  · rw [if_pos hg]
    intro i hi hti
    simp only [List.length_append, List.length_cons, List.length_nil] at hi
    by_cases hie : i = r.threads.length
    · simp [hie]
    · have hlt : i < r.threads.length := by omega
      rw [getD_append_left _ _ _ hlt] at hti
      have hidx := h i hlt hti
      rcases Bool.or_eq_true_iff.mp hg with hnone | hdead
      · rw [Option.isNone_iff_eq_none] at hnone
        rw [hnone] at hidx
        exact absurd hidx (by simp)
      · have halive : listenerAlive r = true := by
          unfold listenerAlive
          rw [hidx]
          exact hti
        rw [halive] at hdead
        simp at hdead
  · rw [if_neg hg]
    exact h

theorem start_listener_alive (r : RelayState) :
    listenerAlive (start_listener_thread r) = true := by
  unfold start_listener_thread
  by_cases hg : (r.listenerIdx.isNone || !listenerAlive r) = true
  · rw [if_pos hg]
    unfold listenerAlive
    simp only
    exact getD_append_self r.threads true
  · rw [if_neg hg]
    have := Bool.not_eq_true _ ▸ hg
    rcases Bool.or_eq_false_iff.mp (Bool.not_eq_true _ |>.mp hg) with ⟨_, hal⟩
    simpa using hal

theorem start_start (r : RelayState) :
    start_listener_thread (start_listener_thread r) = start_listener_thread r := by
  have halive := start_listener_alive r
  generalize hre : start_listener_thread r = r2 at halive ⊢
  have hnone : r2.listenerIdx.isNone = false := by
    cases h : r2.listenerIdx with
    | none =>
      unfold listenerAlive at halive
      rw [h] at halive
      simp at halive
    | some i => simp [h]
  unfold start_listener_thread
  rw [hnone, halive]
  simp

end MUDClient

/-- C1: for every sequence of N appends with N > 100 (the cap), a subsequent
`get_messages` returns exactly the last 100 appended entries in their
original insertion order (oldest evicted first, FIFO), and exactly 100 of
them. -/
theorem transcript_keeps_last_100 (es : List TranscriptEntry)
    (h : 100 < es.length) :
    GameState.get_messages (GameState.appendAll [] es) =
      es.drop (es.length - 100) ∧
    (GameState.get_messages (GameState.appendAll [] es)).length = 100 := by
  have key := GameState.appendAll_eq_drop es [] (by simp)
  simp only [List.nil_append] at key
  refine ⟨by simpa [GameState.get_messages] using key, ?_⟩
  rw [GameState.get_messages, key]
  simp only [List.length_drop]
  omega

/-- C1 witness: 101 appends leave exactly the last 100 entries. -/
theorem transcript_keeps_last_100_witness :
    100 < (List.replicate 101 (TranscriptEntry.mk "00:00:00" "hi" "system")).length ∧
    (GameState.get_messages
        (GameState.appendAll []
          (List.replicate 101 (TranscriptEntry.mk "00:00:00" "hi" "system"))) =
      (List.replicate 101 (TranscriptEntry.mk "00:00:00" "hi" "system")).drop
        ((List.replicate 101 (TranscriptEntry.mk "00:00:00" "hi" "system")).length - 100) ∧
     (GameState.get_messages
        (GameState.appendAll []
          (List.replicate 101 (TranscriptEntry.mk "00:00:00" "hi" "system")))).length = 100) :=
  ⟨by simp, transcript_keeps_last_100 _ (by simp)⟩

/-- C3: calling `send_command` with no active player identity returns the
`(False, \x7b"message": "Not connected to game"\x7d)` failure, issues no
external request, and leaves the whole client state — in particular the
transcript — unchanged. -/
theorem send_command_not_connected (s : MUDClient.ClientState)
    (command : String) (o : MUDClient.ServerOracle)
    (h : s.player_id = none) :
    MUDClient.send_command s command o =
      (s, (false, .onlyMessage "Not connected to game"), []) ∧
    (MUDClient.send_command s command o).1.messages = s.messages := by
  have hmain : MUDClient.send_command s command o =
      (s, (false, .onlyMessage "Not connected to game"), []) := by
    simp [MUDClient.send_command, MUDClient.pidTruthy, h]
  exact ⟨hmain, by rw [hmain]⟩

/-- C3 witness at a concrete disconnected client. -/
theorem send_command_not_connected_witness :
    MUDClient.send_command
        ⟨none, true, [], [], ⟨[], none, false⟩, []⟩ "look"
        ⟨.transportError "net", (true, "")⟩ =
      (⟨none, true, [], [], ⟨[], none, false⟩, []⟩,
       (false, .onlyMessage "Not connected to game"), []) ∧
    (MUDClient.send_command
        ⟨none, true, [], [], ⟨[], none, false⟩, []⟩ "look"
        ⟨.transportError "net", (true, "")⟩).1.messages = [] :=
  send_command_not_connected _ "look" _ rfl

/-- C4: `start_listener_thread` is idempotent — starting twice equals
starting once, after a start the listener is live, the liveness invariant
is preserved, and at most one spawned relay thread is ever alive. -/
theorem start_listener_thread_idempotent (r : MUDClient.RelayState)
    (h : MUDClient.RelayInv r) :
    MUDClient.start_listener_thread (MUDClient.start_listener_thread r) =
      MUDClient.start_listener_thread r ∧
    MUDClient.listenerAlive (MUDClient.start_listener_thread r) = true ∧
    MUDClient.RelayInv (MUDClient.start_listener_thread r) ∧
    (∀ i j, i < (MUDClient.start_listener_thread r).threads.length →
      j < (MUDClient.start_listener_thread r).threads.length →
      (MUDClient.start_listener_thread r).threads.getD i false = true →
      (MUDClient.start_listener_thread r).threads.getD j false = true →
      i = j) :=
  ⟨MUDClient.start_start r, MUDClient.start_listener_alive r,
   MUDClient.start_preserves_inv h,
   MUDClient.relayInv_unique (MUDClient.start_preserves_inv h)⟩

/-- C4 witness at the freshly initialized relay state (no thread yet). -/
theorem start_listener_thread_idempotent_witness :
    MUDClient.start_listener_thread
        (MUDClient.start_listener_thread ⟨[], none, false⟩) =
      MUDClient.start_listener_thread ⟨[], none, false⟩ ∧
    MUDClient.listenerAlive (MUDClient.start_listener_thread ⟨[], none, false⟩) = true ∧
    MUDClient.RelayInv (MUDClient.start_listener_thread ⟨[], none, false⟩) ∧
    (∀ i j, i < (MUDClient.start_listener_thread ⟨[], none, false⟩).threads.length →
      j < (MUDClient.start_listener_thread ⟨[], none, false⟩).threads.length →
      (MUDClient.start_listener_thread ⟨[], none, false⟩).threads.getD i false = true →
      (MUDClient.start_listener_thread ⟨[], none, false⟩).threads.getD j false = true →
      i = j) :=
  start_listener_thread_idempotent ⟨[], none, false⟩
    (fun i hi _ => absurd hi (by simp))

/-- C5: `subscribe_to_redis` (the spec's `update_room`) is idempotent: two
calls with the same player id and room leave the same subscription set as
one call, namely
`[player:<id>, system, room:<room with spaces replaced by underscores>]`;
the previous set is replaced outright, whatever it was. -/
theorem subscribe_to_redis_idempotent (s : MUDClient.ClientState)
    (pid room : String) (lk : Option String)
    (hredis : s.redisOk = true) (hroom : room ≠ "") :
    (MUDClient.subscribe_to_redis
        (MUDClient.subscribe_to_redis s pid (some room) lk).1
        pid (some room) lk).1.channels =
      (MUDClient.subscribe_to_redis s pid (some room) lk).1.channels ∧
    (MUDClient.subscribe_to_redis s pid (some room) lk).1.channels =
      ["player:" ++ pid, "system", "room:" ++ spaceToUnderscore room] := by
  constructor <;>
    simp [MUDClient.subscribe_to_redis, hredis, hroom]

/-- C5 witness: resubscribing twice to "Engine Room" for player p1. -/
theorem subscribe_to_redis_idempotent_witness :
    (MUDClient.subscribe_to_redis
        (MUDClient.subscribe_to_redis
          ⟨some "p1", true, ["room:Old"], [], ⟨[], none, false⟩, []⟩
          "p1" (some "Engine Room") none).1
        "p1" (some "Engine Room") none).1.channels =
      (MUDClient.subscribe_to_redis
          ⟨some "p1", true, ["room:Old"], [], ⟨[], none, false⟩, []⟩
          "p1" (some "Engine Room") none).1.channels ∧
    (MUDClient.subscribe_to_redis
        ⟨some "p1", true, ["room:Old"], [], ⟨[], none, false⟩, []⟩
        "p1" (some "Engine Room") none).1.channels =
      ["player:" ++ "p1", "system", "room:" ++ spaceToUnderscore "Engine Room"] :=
  subscribe_to_redis_idempotent _ "p1" "Engine Room" none rfl (by decide)

/-- C7: when no room is supplied and the best-effort lookup yields no room
name, `subscribe_to_redis` subscribes to only the player and system
channels — the room channel is omitted and the update still completes. -/
theorem subscribe_to_redis_no_room (s : MUDClient.ClientState) (pid : String)
    (hredis : s.redisOk = true) :
    (MUDClient.subscribe_to_redis s pid none none).1.channels =
      ["player:" ++ pid, "system"] := by
  simp [MUDClient.subscribe_to_redis, hredis]

/-- C7 witness at a concrete client with an unknown room. -/
theorem subscribe_to_redis_no_room_witness :
    (MUDClient.subscribe_to_redis
        ⟨some "p1", true, [], [], ⟨[], none, false⟩, []⟩ "p1" none none).1.channels =
      ["player:" ++ "p1", "system"] :=
  subscribe_to_redis_no_room _ "p1" rfl

/-- C2: a movement command (lowercased text beginning "move ") answered
with a 200 response whose result succeeds with private message
"Engine Room\nYou arrive." leaves the client subscribed to the room
channel `room:Engine_Room`, derived from the first line of the private
message with spaces replaced by underscores. -/
theorem move_command_updates_room_channel (s : MUDClient.ClientState)
    (command pid text perr : String) (o : MUDClient.ServerOracle)
    (js : MUDClient.JsonEnvelope) (rb : MUDClient.ResultBody)
    (hpid : s.player_id = some pid) (hp : pid ≠ "")
    (hredis : s.redisOk = true)
    (hmove : py_startswith (py_lower command) "move " = true)
    (hresp : o.commandResponse = .response 200 (some js) text perr)
    (hres : js.result = some rb)
    (hpm : rb.privateMessage = some "Engine Room\nYou arrive.")
    (_hsucc : rb.success = some true) :
    (MUDClient.send_command s command o).1.channels =
      ["player:" ++ pid, "system", "room:Engine_Room"] ∧
    "room:Engine_Room" ∈ (MUDClient.send_command s command o).1.channels := by
  have hb : (pid == "") = false := by simp [hp]
  have hfl : firstLine "Engine Room\nYou arrive." = "Engine Room" := by decide
  have hch : "room:" ++ spaceToUnderscore "Engine Room" = "room:Engine_Room" := by
    decide
  have hchannels : (MUDClient.send_command s command o).1.channels =
      ["player:" ++ pid, "system", "room:Engine_Room"] := by
    simp only [MUDClient.send_command, MUDClient.pidTruthy, hpid, hb,
      Bool.not_false, hresp, hres, hpm, hmove, MUDClient.subscribe_to_redis,
      hredis, hfl, hch, Option.getD_some]
    simp [MUDClient.subscribe_to_redis, hredis, hfl, hch, hres]
  exact ⟨hchannels, by rw [hchannels]; simp⟩

/-- C2 witness: a concrete successful move to Engine Room. -/
theorem move_command_updates_room_channel_witness :
    (MUDClient.send_command
        ⟨some "p1", true, ["room:Old"], [], ⟨[], none, false⟩, []⟩
        "move north"
        ⟨.response 200
          (some ⟨some ⟨some true, some "", some "Engine Room\nYou arrive.", some ""⟩,
            none⟩) "" "",
         (true, "ok")⟩).1.channels =
      ["player:" ++ "p1", "system", "room:Engine_Room"] ∧
    "room:Engine_Room" ∈
      (MUDClient.send_command
        ⟨some "p1", true, ["room:Old"], [], ⟨[], none, false⟩, []⟩
        "move north"
        ⟨.response 200
          (some ⟨some ⟨some true, some "", some "Engine Room\nYou arrive.", some ""⟩,
            none⟩) "" "",
         (true, "ok")⟩).1.channels :=
  move_command_updates_room_channel _ "move north" "p1" "" "" _ _ _
    rfl (by decide) rfl (by decide) rfl rfl rfl rfl

/-- C6 counterexample: the claim says a non-200 response without a
structured error field makes the failure message fall back to the raw
response text; the code actually prepends "Command failed: ", so at raw
text "boom" the returned message is not "boom". -/
theorem send_command_error_fallback_counterexample :
    (MUDClient.send_command
        ⟨some "p1", true, [], [], ⟨[], none, false⟩, []⟩ "look"
        ⟨.response 500 none "boom" "", (true, "")⟩).2.1 =
      (false, .onlyMessage "Command failed: boom") ∧
    "Command failed: boom" ≠ "boom" := by
  constructor
  · rfl
  · decide

/-- C6 (amended): `send_command` is a total function of its oracle — no
exception reaches the caller.  A non-200 status returns a normalized
failure whose message is the structured `error` field when the body parses
as JSON containing one, and otherwise "Command failed: " followed by the
raw response text; a transport failure returns a failure with message
"Error sending command: " followed by the exception text; and an exception
in the relay loop is swallowed, leaving the hand-off queue as it was. -/
theorem send_command_failure_normalized (s : MUDClient.ClientState)
    (command pid : String) (o : MUDClient.ServerOracle)
    (hpid : s.player_id = some pid) (hp : pid ≠ "") :
    (∀ status json text perr,
      o.commandResponse = .response status json text perr → status ≠ 200 →
      (MUDClient.send_command s command o).2.1 =
        (false, .onlyMessage
          (match json with
           | some js => js.errorField.getD ("Command failed: " ++ text)
           | none => "Command failed: " ++ text))) ∧
    (∀ e, o.commandResponse = .transportError e →
      (MUDClient.send_command s command o).2.1 =
        (false, .onlyMessage ("Error sending command: " ++ e))) ∧
    (∀ e ps q, MUDClient.listen_to_redis (.raised e :: ps) q = q) := by
  have hb : (pid == "") = false := by simp [hp]
  refine ⟨?_, ?_, ?_⟩
  · intro status json text perr hresp hst
    cases json with
    | none =>
      simp [MUDClient.send_command, MUDClient.pidTruthy, hpid, hb, hresp, hst]
    | some js =>
      simp [MUDClient.send_command, MUDClient.pidTruthy, hpid, hb, hresp, hst]
  · intro e hresp
    simp [MUDClient.send_command, MUDClient.pidTruthy, hpid, hb, hresp]
  · intro e ps q
    rfl

/-- C6 (amended) witness: a 500 with a structured error field, a 500
without one, a transport failure, and a relay exception. -/
theorem send_command_failure_normalized_witness :
    (∀ status json text perr,
      (MUDClient.ServerOracle.mk (.response 500 none "boom" "") (true, "")).commandResponse
        = .response status json text perr → status ≠ 200 →
      (MUDClient.send_command
          ⟨some "p1", true, [], [], ⟨[], none, false⟩, []⟩ "look"
          ⟨.response 500 none "boom" "", (true, "")⟩).2.1 =
        (false, .onlyMessage
          (match json with
           | some js => js.errorField.getD ("Command failed: " ++ text)
           | none => "Command failed: " ++ text))) ∧
    (∀ e, (MUDClient.ServerOracle.mk (.response 500 none "boom" "") (true, "")).commandResponse
        = .transportError e →
      (MUDClient.send_command
          ⟨some "p1", true, [], [], ⟨[], none, false⟩, []⟩ "look"
          ⟨.response 500 none "boom" "", (true, "")⟩).2.1 =
        (false, .onlyMessage ("Error sending command: " ++ e))) ∧
    (∀ e ps q, MUDClient.listen_to_redis (.raised e :: ps) q = q) :=
  send_command_failure_normalized
    ⟨some "p1", true, [], [], ⟨[], none, false⟩, []⟩ "look" "p1"
    ⟨.response 500 none "boom" "", (true, "")⟩ rfl (by decide)

/-- C8: the transcript cap is the hardcoded constant 100: for every
configuration, including any whose `max_messages` differs from 100,
`add_message` (which takes no configuration input at all) bounds the
transcript by 100 and trims it to exactly 100 once it is full. -/
theorem transcript_cap_hardcoded_100 (cfg : GameConfig)
    (_hcfg : cfg.max_messages ≠ 100) (msgs : List TranscriptEntry)
    (ts m ty : String) :
    (GameState.add_message msgs ts m ty).length ≤ 100 ∧
    (100 ≤ msgs.length → (GameState.add_message msgs ts m ty).length = 100) := by
  refine ⟨GameState.add_message_length_le msgs ts m ty, ?_⟩
  intro h
  rw [GameState.add_message_eq_drop]
  simp only [List.length_drop, List.length_append, List.length_cons,
    List.length_nil]
  omega

/-- C8 witness: a configuration with `max_messages = 50` still caps at 100. -/
theorem transcript_cap_hardcoded_100_witness :
    (GameConfig.mk "http://localhost" 1 50 "localhost" 6379).max_messages ≠ 100 ∧
    ((GameState.add_message [] "00:00:00" "hi" "system").length ≤ 100 ∧
     (100 ≤ ([] : List TranscriptEntry).length →
       (GameState.add_message [] "00:00:00" "hi" "system").length = 100)) :=
  ⟨by decide,
   transcript_cap_hardcoded_100 (GameConfig.mk "http://localhost" 1 50 "localhost" 6379)
     (by decide) [] "00:00:00" "hi" "system"⟩

/-- C9: the movement side effect never consults the success flag: a 200
response to a "move " command whose result carries a non-empty private
message (with a non-empty first line) updates the stored location (a
Supabase `update_location` call is issued) and resubscribes to the room
named by the first line, even when `result.success` is false. -/
theorem move_side_effect_ignores_success (s : MUDClient.ClientState)
    (command pid text perr p : String) (o : MUDClient.ServerOracle)
    (js : MUDClient.JsonEnvelope) (rb : MUDClient.ResultBody)
    (hpid : s.player_id = some pid) (hp : pid ≠ "")
    (hredis : s.redisOk = true)
    (hmove : py_startswith (py_lower command) "move " = true)
    (hresp : o.commandResponse = .response 200 (some js) text perr)
    (hres : js.result = some rb)
    (hpm : rb.privateMessage = some p) (hpne : p ≠ "")
    (hfl : firstLine p ≠ "")
    (_hsucc : rb.success = some false) :
    (MUDClient.send_command s command o).1.channels =
      ["player:" ++ pid, "system", "room:" ++ spaceToUnderscore (firstLine p)] ∧
    "SUPABASE update_location" ∈ (MUDClient.send_command s command o).2.2 := by
  have hb : (pid == "") = false := by simp [hp]
  constructor
  · simp [MUDClient.send_command, MUDClient.pidTruthy, hpid, hb, hresp, hres,
      hpm, hmove, hpne, MUDClient.subscribe_to_redis, hredis, hfl]
  · simp [MUDClient.send_command, MUDClient.pidTruthy, hpid, hb, hresp, hres,
      hpm, hmove, hpne, MUDClient.subscribe_to_redis, hredis, hfl]

/-- C9 witness: a failed move (success = false) still rewires the room
subscription and updates the stored location. -/
theorem move_side_effect_ignores_success_witness :
    (MUDClient.send_command
        ⟨some "p1", true, ["room:Old"], [], ⟨[], none, false⟩, []⟩
        "move east"
        ⟨.response 200
          (some ⟨some ⟨some false, some "", some "Cargo Bay\nBlocked.", some ""⟩,
            none⟩) "" "",
         (true, "ok")⟩).1.channels =
      ["player:" ++ "p1", "system",
       "room:" ++ spaceToUnderscore (firstLine "Cargo Bay\nBlocked.")] ∧
    "SUPABASE update_location" ∈
      (MUDClient.send_command
        ⟨some "p1", true, ["room:Old"], [], ⟨[], none, false⟩, []⟩
        "move east"
        ⟨.response 200
          (some ⟨some ⟨some false, some "", some "Cargo Bay\nBlocked.", some ""⟩,
            none⟩) "" "",
         (true, "ok")⟩).2.2 :=
  move_side_effect_ignores_success _ "move east" "p1" "" "" "Cargo Bay\nBlocked." _ _ _
    rfl (by decide) rfl (by decide) rfl rfl rfl (by decide) (by decide) rfl

/-- C10: each foreground refresh removes at most one payload from the
relay hand-off queue (the drained queue is exactly the tail), and a falsy
(empty-string) payload is consumed without producing a transcript entry. -/
theorem render_drain_at_most_one (q : List String)
    (msgs : List TranscriptEntry) (ts : String) :
    (render_queue_drain q msgs ts).1 = q.tail ∧
    q.length ≤ (render_queue_drain q msgs ts).1.length + 1 ∧
    (∀ rest, q = "" :: rest → render_queue_drain q msgs ts = (rest, msgs)) := by
  cases q with
  | nil =>
    refine ⟨rfl, by simp [render_queue_drain], ?_⟩
    intro rest h
    exact absurd h (by simp)
  | cons m rest =>
    refine ⟨rfl, by simp [render_queue_drain], ?_⟩
    intro rest' h
    have hm : m = "" := (List.cons.injEq _ _ _ _ ▸ h).1
    have hr : rest = rest' := ((List.cons.injEq _ _ _ _).mp h).2
    subst hm
    subst hr
    simp [render_queue_drain]

/-- C10 witness: an empty-string payload at the head is consumed without a
transcript entry. -/
theorem render_drain_at_most_one_witness :
    (render_queue_drain ["", "hello"] [] "00:00:00").1 = ["", "hello"].tail ∧
    (["", "hello"] : List String).length ≤
      (render_queue_drain ["", "hello"] [] "00:00:00").1.length + 1 ∧
    (∀ rest, ("" :: "hello" :: [] : List String) = "" :: rest →
      render_queue_drain ["", "hello"] [] "00:00:00" = (rest, [])) :=
  render_drain_at_most_one ["", "hello"] [] "00:00:00"
